import Mathlib

/-!
Verification development for the SincGames save-backup pipeline.

The definitions below are a shallow embedding of the change-detection,
snapshotting and backup/restore services of the repository
(`electron/services/system.mjs`, `electron/services/save-sync.mjs`,
`electron/services/restore-service.mjs`, `electron/services/state-store.mjs`,
the Google Drive backup store and the catalog-merge logic of the electron
main process).  Filesystem, process-table and network effects are made
explicit: each fallible external call is an injected `Except` outcome, and
the state each service touches is passed explicitly.  The theorems at the
end of the file settle the specified properties against these definitions.
-/

namespace SincGames

/-! ## system.mjs — glob matching, file enumeration, fingerprint -/

/-- Token alphabet of the compiled selector pattern.  `matchesPattern`
builds a regex by escaping regex-special characters and then rewriting
`**` before `*`; because the second rewrite also hits the `*` introduced
by the first one, an original `**` compiles to "any one character followed
by a run of non-separator characters", an original lone `*` to a run of
non-separator characters, and `?` to any one character. -/
inductive GlobTok where
  | anyChar
  | nonSepStar
  | lit (c : Char)
deriving DecidableEq, Repr

/-- Compilation of a selector pattern, mirroring the chained
`replace` calls of `matchesPattern` in `system.mjs`. -/
def compileGlob : List Char → List GlobTok
  | [] => []
  | '*' :: '*' :: rest => .anyChar :: .nonSepStar :: compileGlob rest
  | '*' :: rest => .nonSepStar :: compileGlob rest
  | '?' :: rest => .anyChar :: compileGlob rest
  | c :: rest => .lit c :: compileGlob rest

/-- Matching of a compiled pattern against a relative path.  Literals are
compared case-insensitively (the source regex carries the `i` flag); the
non-separator star never crosses `/` or `\`. -/
def globMatch (p : List GlobTok) (s : List Char) : Bool :=
  match p, s with
  | [], [] => true
  | [], _ :: _ => false
  | .anyChar :: _, [] => false
  | .anyChar :: ps, _ :: rest => globMatch ps rest
  | .nonSepStar :: ps, [] => globMatch ps []
  | .nonSepStar :: ps, c :: rest =>
      globMatch ps (c :: rest) ||
      (!(c == '/' || c == '\\') && globMatch (.nonSepStar :: ps) rest)
  | .lit _ :: _, [] => false
  | .lit c :: ps, d :: rest => (c.toLower == d.toLower) && globMatch ps rest
termination_by (p.length + s.length)
decreasing_by all_goals simp_wf <;> omega

/-- `matchesPattern(relativePath, pattern)` from `system.mjs`: an empty
pattern or the match-everything pattern `**/*` short-circuits to true. -/
def matchesPattern (relativePath pattern : String) : Bool :=
  if pattern = "" || pattern = "**/*" then true
  else globMatch (compileGlob pattern.data) relativePath.data

/-- One file found by the recursive walk of `collectFiles`: its path
relative to the watch root, its last-modified timestamp (an ISO string)
and its raw bytes. -/
structure FileEntry where
  relativePath : String
  modifiedAt : String
  content : List Nat
deriving DecidableEq, Repr

/-- Ordering on enumerated files by relative path (the
`left.relativePath.localeCompare(right.relativePath)` comparator of
`collectFiles`, modelled as the lexicographic order on the code points
of the path). -/
def fileLe (a b : FileEntry) : Prop := a.relativePath.data ≤ b.relativePath.data

instance : DecidableRel fileLe := fun a b =>
  inferInstanceAs (Decidable (a.relativePath.data ≤ b.relativePath.data))

instance : IsTotal FileEntry fileLe := ⟨fun a b => le_total a.relativePath.data b.relativePath.data⟩

instance : IsTrans FileEntry fileLe := ⟨fun _ _ _ h₁ h₂ => le_trans h₁ h₂⟩

/-- The filter applied to every file met by the walk: keep it when the
pattern list is empty or some pattern matches its relative path. -/
def selectFile (patterns : List String) (f : FileEntry) : Bool :=
  patterns.isEmpty || patterns.any (fun pat => matchesPattern f.relativePath pat)

/-- `collectFiles(rootDir, patterns)` from `system.mjs`.  The filesystem
walk is injected as the enumeration-ordered list `enumerated`; the
function filters it by the selector patterns and sorts the result by
relative path (`Array.prototype.sort` is a stable comparison sort, so any
stable sort embeds it; with pairwise-distinct paths the output does not
depend on the choice). -/
def collectFiles (patterns : List String) (enumerated : List FileEntry) : List FileEntry :=
  List.insertionSort fileLe (enumerated.filter (selectFile patterns))

/-- The exact update sequence `hashFiles` feeds to the SHA-256 hasher:
for each file, in list order, its relative path, its `mtime` ISO string
and its raw bytes. -/
def hashInput (files : List FileEntry) : List (String × String × List Nat) :=
  files.map (fun f => (f.relativePath, f.modifiedAt, f.content))

/-- `hashFiles(rootDir, files)` from `system.mjs`.  SHA-256 itself is an
opaque deterministic function of the byte stream fed to the hasher, so it
is abstracted by the `digest` parameter; the code determines the digest
entirely through `hashInput`. -/
def hashFiles (digest : List (String × String × List Nat) → String)
    (files : List FileEntry) : String :=
  digest (hashInput files)

/-! ## system.mjs — process state oracle -/

/-- True on the path separators recognised by the win32 `path` module. -/
def isPathSep (c : Char) : Bool := c == '/' || c == '\\'

/-- `path.basename` on the configured executable name: the last
path component, with trailing separators dropped (drive-letter roots are
not modelled; configured process names are plain names or file paths). -/
def winBasename (s : String) : String :=
  ⟨((s.data.reverse.dropWhile isPathSep).takeWhile (fun c => !isPathSep c)).reverse⟩

/-- `path.extname`: the suffix of the basename starting at its last dot,
empty when there is no dot or the only dot is the leading character of a
dotfile. -/
def winExtname (s : String) : String :=
  let base := (winBasename s).data
  let afterDot := base.reverse.takeWhile (fun c => c != '.')
  if afterDot.length = base.length then ""
  else if afterDot.length + 1 = base.length then ""
  else ⟨base.drop (base.length - afterDot.length - 1)⟩

/-- `path.basename(p, ext)`: additionally strips `ext` when it is a
proper suffix of the basename. -/
def winBasenameExt (s ext : String) : String :=
  let b := winBasename s
  if ext ≠ "" ∧ ext.data.length < b.data.length ∧ ext.data.isSuffixOf b.data then
    ⟨b.data.take (b.data.length - ext.data.length)⟩
  else b

/-- JavaScript string trim, on the code points of the string. -/
def jsTrim (s : String) : String :=
  ⟨((s.data.dropWhile Char.isWhitespace).reverse.dropWhile Char.isWhitespace).reverse⟩

/-- `normalizeProcessLookupName` from `system.mjs`: a missing (`null` /
`undefined`) or empty name normalizes to the empty string, otherwise the
configured name is stripped of any path and extension and trimmed. -/
def normalizeProcessLookupName (processName : Option String) : String :=
  match processName with
  | none => ""
  | some s => if s = "" then "" else jsTrim (winBasenameExt s (winExtname s))

/-- Case-insensitive substring test on code points, modelling
`stdout.toLowerCase().includes(needle.toLowerCase())`. -/
def lowerIncludes (haystack needle : String) : Bool :=
  (haystack.data.map Char.toLower).tails.any ((needle.data.map Char.toLower).isPrefixOf ·)

/-- `isProcessRunning(processName)` from `system.mjs`.  `tasklistOut` is
the stdout the OS `tasklist` query would produce.  The first component
records whether the OS process table was queried at all; the second is
the returned boolean. -/
def isProcessRunning (tasklistOut : String) (processName : Option String) : Bool × Bool :=
  let lookupName := normalizeProcessLookupName processName
  if lookupName = "" then (false, false)
  else (true, lowerIncludes tasklistOut (lookupName ++ ".exe"))

/-- Result shape of `getProcessState`. -/
structure ProcessState where
  running : Bool
  startedAt : Option String
deriving DecidableEq, Repr

/-- Outcome of the enriched PowerShell query: it either throws (and the
caller falls back to the boolean-only `tasklist` query) or yields a
running flag and an optional start time. -/
inductive PsQuery where
  | failed
  | ok (running : Bool) (startedAt : Option String)
deriving DecidableEq, Repr

/-- `getProcessState(processName)` from `system.mjs`.  The first
component records whether any OS query was made.  A falsy `startedAt`
from the enriched query is reported as `null`. -/
def getProcessState (tasklistOut : String) (ps : PsQuery)
    (processName : Option String) : Bool × ProcessState :=
  let lookupName := normalizeProcessLookupName processName
  if lookupName = "" then (false, { running := false, startedAt := none })
  else
    match ps with
    | .ok r s =>
        (true, { running := r,
                 startedAt := match s with
                   | some v => if v = "" then none else some v
                   | none => none })
    | .failed => (true, { running := (isProcessRunning tasklistOut processName).2, startedAt := none })

/-! ## Shared records -/

/-- A local save snapshot (`SaveSnapshot` in `types.mjs`).  The `hash`
field holds the hex digest produced by `hashFiles`. -/
structure LocalSnapshot where
  id : String
  gameId : String
  createdAt : String
  modifiedFiles : Nat
  archiveName : String
  archivePath : String
  hash : String
  sizeBytes : Nat
deriving DecidableEq, Repr

/-- A remote backup record (`RemoteBackup` in `types.mjs`), as stored in
the per-game metadata documents and the `latest.json` pointer. -/
structure RemoteBackup where
  id : String
  gameId : String
  createdAt : String
  driveFileId : Option String
  metadataFileId : Option String
  archiveName : String
  hash : String
  sizeBytes : Nat
  deviceLabel : String
deriving DecidableEq, Repr

/-- A monitored game (`GameConfig` in `types.mjs`), after
`normalizeGameRecord` has filled the defaulted fields. -/
structure Game where
  id : String
  title : String
  savePath : String
  processName : String
  executablePath : String
  installRoot : String
  launchType : String
  launchTarget : String
  totalPlaySeconds : Nat
  currentlyRunning : Bool
  sessionStartedAt : Option String
  lastPlayedAt : Option String
  filePatterns : List String
  latestLocalSave : Option LocalSnapshot
  latestRemoteSave : Option RemoteBackup
deriving DecidableEq, Repr

/-- Payload of a `sync:event` emission. -/
inductive EventType where
  | info
  | warning
  | snapshot
deriving DecidableEq, Repr

/-- One `sync:event` sent to the renderer. -/
structure SyncEvent where
  type : EventType
  gameId : Option String
  message : String
deriving DecidableEq, Repr

/-! ## save-sync.mjs — capture path -/

/-- Ambient inputs of one capture attempt that the code reads from the
outside world: the freshly generated snapshot id, the current ISO
timestamp and the OS temporary directory. -/
structure CaptureCtx where
  snapshotId : String
  createdAt : String
  tmpdir : String
deriving DecidableEq, Repr

instance {ε α : Type} [DecidableEq ε] [DecidableEq α] : DecidableEq (Except ε α) := fun x y =>
  match x, y with
  | .error a, .error b =>
      if h : a = b then .isTrue (by rw [h]) else .isFalse (by simp [h])
  | .ok a, .ok b =>
      if h : a = b then .isTrue (by rw [h]) else .isFalse (by simp [h])
  | .error _, .ok _ => .isFalse (by simp)
  | .ok _, .error _ => .isFalse (by simp)

/-- Result of `captureIfStable`: the value returned or error thrown, the
`sync:event` payloads emitted along the way, and whether the attempt
called `queueSnapshot` to reschedule itself. -/
structure CaptureOutcome where
  result : Except String (Option LocalSnapshot)
  events : List SyncEvent
  rescheduled : Bool
deriving DecidableEq, Repr

/-- The gate message of `captureIfStable` for a manual attempt. -/
def manualGateMsg (game : Game) : String :=
  "No se puede respaldar " ++ game.title ++ " mientras " ++ game.processName ++ " sigue abierto."

/-- The gate message of `captureIfStable` for an automatic attempt. -/
def autoGateMsg (game : Game) : String :=
  "Se detectaron cambios, pero " ++ game.processName ++ " sigue abierto."

/-- The error message thrown when a capture matches zero files. -/
def noFilesMsg (game : Game) : String :=
  "No se encontraron archivos para respaldar en " ++ game.savePath ++ "."

/-- Total bytes reported by `createArchive` (the archiver progress
counter of processed source bytes). -/
def createArchiveSize (files : List FileEntry) : Nat :=
  (files.map (fun f => f.content.length)).sum

/-- The body of `captureIfStable` reached when the process gate is open:
enumerate (`listing` is the outcome of the filesystem walk, an exception
or the raw enumeration), filter and sort via `collectFiles`, fail when
zero files match, otherwise fingerprint, archive and return the new
snapshot together with its `snapshot` event. -/
def captureBody (digest : List (String × String × List Nat) → String)
    (game : Game) (ctx : CaptureCtx)
    (listing : Except String (List FileEntry)) : CaptureOutcome :=
  match listing with
  | .error e => { result := .error e, events := [], rescheduled := false }
  | .ok enumerated =>
    let files := collectFiles game.filePatterns enumerated
    if files.length = 0 then
      { result := .error (noFilesMsg game), events := [], rescheduled := false }
    else
      let archiveName := game.id ++ "-" ++ ctx.snapshotId ++ ".zip"
      let snapshot : LocalSnapshot :=
        { id := ctx.snapshotId
          gameId := game.id
          createdAt := ctx.createdAt
          modifiedFiles := files.length
          archiveName := archiveName
          archivePath := ctx.tmpdir ++ "/" ++ archiveName
          hash := hashFiles digest files
          sizeBytes := createArchiveSize files }
      { result := .ok (some snapshot)
        events := [{ type := .snapshot, gameId := some game.id,
                     message := "Nuevo save local detectado para " ++ game.title ++ "." }]
        rescheduled := false }

/-- `captureIfStable(game, options)` from `save-sync.mjs`.  `running` is
the answer of the process oracle; `manual` is `options.manual`.  While
the process runs, both paths emit an info event; the automatic path then
reschedules and resolves to `null`, the manual path throws.  With the
gate open the attempt proceeds with `captureBody`. -/
def captureIfStable (digest : List (String × String × List Nat) → String)
    (game : Game) (ctx : CaptureCtx) (running manual : Bool)
    (listing : Except String (List FileEntry)) : CaptureOutcome :=
  if running then
    let message := if manual then manualGateMsg game else autoGateMsg game
    let gateEvent : SyncEvent := { type := .info, gameId := some game.id, message := message }
    if manual then { result := .error message, events := [gateEvent], rescheduled := false }
    else { result := .ok none, events := [gateEvent], rescheduled := true }
  else captureBody digest game ctx listing

/-- What the debounce timer armed by `queueSnapshot` runs when it fires:
`captureIfStable(game)` with no `options` and, in the source, no
surrounding try/catch. -/
def timerFiredCapture (digest : List (String × String × List Nat) → String)
    (game : Game) (ctx : CaptureCtx) (running : Bool)
    (listing : Except String (List FileEntry)) : CaptureOutcome :=
  captureIfStable digest game ctx running false listing

/-! ## save-sync.mjs — debounce timer map -/

/-- Default `SYNC_STABILITY_WINDOW_MS`. -/
def defaultSettleWindowMs : Nat := 10000

/-- Removal of a game entry from the `pendingTimers` map. -/
def erasePendingTimer (gid : String) (timers : List (String × Nat)) : List (String × Nat) :=
  timers.filter (fun p => p.1 ≠ gid)

/-- `queueSnapshot(game)` at time `t`: `clearTimeout` on the previous
pending timer of the game (if any) and registration of a fresh timer due
at `t + settleWindow`.  Timers are modelled by their fire deadline. -/
def queueSnapshot (settleWindowMs : Nat) (gid : String) (t : Nat)
    (timers : List (String × Nat)) : List (String × Nat) :=
  (gid, t + settleWindowMs) :: erasePendingTimer gid timers

/-- The cancellation prefix of `captureNow(gameId)`: `clearTimeout` plus
`pendingTimers.delete` when a pending timer exists. -/
def clearPendingTimer (gid : String) (timers : List (String × Nat)) : List (String × Nat) :=
  erasePendingTimer gid timers

/-- External stimuli reaching the scheduler: a filesystem mutation under
some game watch root at time `t`, or a manual capture request. -/
inductive SchedOp where
  | mutation (gid : String) (t : Nat)
  | manualRequest (gid : String)
deriving Repr

/-- Effect of one stimulus on the `pendingTimers` map. -/
def applySchedOp (settleWindowMs : Nat) (timers : List (String × Nat)) :
    SchedOp → List (String × Nat)
  | .mutation gid t => queueSnapshot settleWindowMs gid t timers
  | .manualRequest gid => clearPendingTimer gid timers

/-- The `pendingTimers` map after a stimulus sequence, starting from the
empty map the service is constructed with. -/
def runSchedOps (settleWindowMs : Nat) (ops : List SchedOp) : List (String × Nat) :=
  ops.foldl (applySchedOp settleWindowMs) []

/-- Number of times a debounce timer of one game fires across a sorted
sequence of mutation times.  `pending` carries the deadline of the armed
timer; a mutation at `t` first lets a due timer (deadline ≤ `t`) fire,
then cancels/replaces the timer with one due at `t + settleWindow`; after
the last mutation the armed timer fires. -/
def timerFireCount (settleWindowMs : Nat) (pending : Option Nat) : List Nat → Nat
  | [] => match pending with | some _ => 1 | none => 0
  | t :: rest =>
      (match pending with | some d => if d ≤ t then 1 else 0 | none => 0) +
        timerFireCount settleWindowMs (some (t + settleWindowMs)) rest

/-- Scheduled capture attempts produced by a burst of mutations on one
game, starting with no pending timer. -/
def capturesScheduled (settleWindowMs : Nat) (ts : List Nat) : Nat :=
  timerFireCount settleWindowMs none ts

/-! ## Electron main process — catalog merge -/

/-- A game record as read back from a catalog document, before
`normalizeGameRecord`; fields the document may omit (or hold a JS falsy
value for) are optional. -/
structure RawGame where
  id : String
  title : String
  savePath : String
  processName : String
  executablePath : Option String
  installRoot : Option String
  launchType : Option String
  launchTarget : Option String
  totalPlaySeconds : Option Nat
  lastPlayedAt : Option String
  filePatterns : Option (List String)
  latestLocalSave : Option LocalSnapshot
  latestRemoteSave : Option RemoteBackup
deriving DecidableEq, Repr

/-- JS `a || b` on an optional string: a missing or empty value falls
back to the default. -/
def jsOrStr (a : Option String) (b : String) : String :=
  match a with
  | some s => if s = "" then b else s
  | none => b

/-- `normalizeGameRecord(game)` from the electron main process: fills
defaulted fields and resets the volatile runtime flags. -/
def normalizeGameRecord (g : RawGame) : Game :=
  { id := g.id
    title := g.title
    savePath := g.savePath
    processName := g.processName
    executablePath := (g.executablePath.getD "")
    installRoot := (g.installRoot.getD "")
    launchType := jsOrStr g.launchType "exe"
    launchTarget := jsOrStr g.launchTarget (jsOrStr g.executablePath "")
    totalPlaySeconds := g.totalPlaySeconds.getD 0
    currentlyRunning := false
    sessionStartedAt := none
    lastPlayedAt := match g.lastPlayedAt with
      | some v => if v = "" then none else some v
      | none => none
    filePatterns := match g.filePatterns with
      | some ps => if ps.isEmpty then ["**/*"] else ps
      | none => ["**/*"]
    latestLocalSave := g.latestLocalSave
    latestRemoteSave := g.latestRemoteSave }

/-- The slice of the persisted application state the catalog merge
touches, plus a field it leaves alone. -/
structure AppState where
  scanRoots : List String
  games : List Game
  lastCloudSyncAt : Option String
deriving DecidableEq, Repr

/-- A parsed catalog document.  `none` stands for a field that is
missing or not an array (the `Array.isArray` guards of
`mergeCloudCatalog`). -/
structure CloudCatalog where
  scanRoots : Option (List String)
  games : Option (List RawGame)
deriving DecidableEq, Repr

/-- The lookup `localSnapshotsByGame.get(game.id) || null`:
`new Map(entries)` keeps the last binding of a duplicated key, and a
missing id or a `null` stored pointer both yield `null`. -/
def localSnapshotFor (games : List Game) (gid : String) : Option LocalSnapshot :=
  match (games.filter (fun g => g.id = gid)).getLast? with
  | some g => g.latestLocalSave
  | none => none

/-- `mergeCloudCatalog(remoteCatalog)` from the electron main process:
the scan-root list and the game list are replaced wholesale by the
document (when the document carries them as arrays), except that each
merged game keeps the latest-local-snapshot pointer currently held in
memory for its id. -/
def mergeCloudCatalog (st : AppState) (remote : CloudCatalog) : AppState :=
  { st with
    scanRoots := match remote.scanRoots with
      | some rs => rs
      | none => st.scanRoots
    games := match remote.games with
      | some gs =>
          gs.map (fun g =>
            normalizeGameRecord { g with latestLocalSave := localSnapshotFor st.games g.id })
      | none => st.games }

/-! ## google-drive service — uploadBackup -/

/-- The three store writes `uploadBackup` performs, in the order the
claimed contract names them. -/
inductive DriveOp where
  | storeArchive
  | storeMetadata
  | writeLatest
deriving DecidableEq, Repr

/-- Remote-call outcomes injected into one `uploadBackup` run: folder
resolution (`ensureAppFolders`/`ensureFolder`), the archive upload, the
metadata upsert and the `latest.json` upsert, each yielding a Drive file
id or throwing. -/
structure UploadOutcomes where
  ensureFolders : Except String Unit
  archiveUpload : Except String String
  metadataUpsert : Except String String
  latestUpsert : Except String String
deriving DecidableEq, Repr

/-- The per-game slice of the remote store `uploadBackup` can modify:
the content of the `latest.json` pointer document. -/
structure DriveGameStore where
  latest : Option RemoteBackup
deriving DecidableEq, Repr

/-- `uploadBackup({gameId, archivePath, archiveName, metadata})` from the
Google Drive service.  Returns the thrown error or resolved metadata, the
store after the run, and the list of store writes that completed, in
completion order. -/
def uploadBackup (oc : UploadOutcomes) (metadata : RemoteBackup)
    (st : DriveGameStore) : Except String RemoteBackup × DriveGameStore × List DriveOp :=
  match oc.ensureFolders with
  | .error e => (.error e, st, [])
  | .ok _ =>
    match oc.archiveUpload with
    | .error e => (.error e, st, [])
    | .ok archiveFileId =>
      let resolved := { metadata with driveFileId := some archiveFileId }
      match oc.metadataUpsert with
      | .error e => (.error e, st, [.storeArchive])
      | .ok metadataFileId =>
        let resolved := { resolved with metadataFileId := some metadataFileId }
        match oc.latestUpsert with
        | .error e => (.error e, st, [.storeArchive, .storeMetadata])
        | .ok _ =>
            (.ok resolved, { st with latest := some resolved },
              [.storeArchive, .storeMetadata, .writeLatest])

/-! ## restore-service.mjs -/

/-- A directory tree as a list of (relative path, raw bytes) files. -/
abbrev Tree := List (String × List Nat)

/-- The filesystem slice one restore attempt touches: the live save
directory (`none` when the directory does not exist), the `local-backup`
safety folder of the scratch workspace (`none` until created) and the
downloaded archive file. -/
structure RestoreFs where
  live : Option Tree
  safety : Option Tree
  archive : Option (List Nat)
deriving DecidableEq, Repr

/-- External outcomes injected into one `restoreLatestRemote` run. -/
structure RestoreEnv where
  hasRemote : Bool
  processRunning : Bool
  processName : String
  download : Except String (List Nat)
  extraction : Except String Tree
  rollbackCopy : Except String Unit
deriving DecidableEq, Repr

/-- The catch block of `restoreLatestRemote`: when the safety folder
exists, clear the live directory and copy the safety contents back, then
rethrow the triggering error.  A failure of the copy-back itself escapes
the catch block instead (the partially copied live directory is modelled
as empty, and the rethrow of the original error is never reached). -/
def restoreCatch (e : String) (env : RestoreEnv) (st : RestoreFs) :
    Except String String × RestoreFs :=
  match st.safety with
  | some saved =>
      match env.rollbackCopy with
      | .error e2 => (.error e2, { st with live := some [] })
      | .ok _ => (.error e, { st with live := some saved })
  | none => (.error e, st)

/-- `restoreLatestRemote(game)` from `restore-service.mjs`.  Returns the
restore timestamp (injected as `restoredAt`) or the thrown error,
together with the filesystem slice after the attempt. -/
def restoreLatestRemote (env : RestoreEnv) (restoredAt : String) (st : RestoreFs) :
    Except String String × RestoreFs :=
  if !env.hasRemote then
    (.error "No hay un backup remoto disponible para restaurar.", st)
  else if env.processRunning then
    (.error ("Cierra " ++ env.processName ++ " antes de restaurar el save."), st)
  else
    let st := match st.live with
      | some t => { st with safety := some t }
      | none => st
    match env.download with
    | .error e => restoreCatch e env st
    | .ok zipBytes =>
      let st := { st with archive := some zipBytes }
      let st := { st with live := some [] }
      match env.extraction with
      | .error e => restoreCatch e env st
      | .ok files => (.ok restoredAt, { st with live := some files })

/-! ## state-store.mjs — retention sweep -/

/-- One entry of the restore-temp root as the sweep sees it: its name,
the outcome of `fs.promises.stat` (its `mtimeMs` or a thrown error) and
the outcome of `fs.promises.rm`. -/
structure TempEntry where
  name : String
  statResult : Except String Int
  rmResult : Except String Unit
deriving DecidableEq, Repr

/-- The cutoff `Date.now() - retentionDays * 24 * 60 * 60 * 1000`. -/
def retentionCutoffMs (nowMs : Int) (retentionDays : Nat) : Int :=
  nowMs - (retentionDays : Int) * 86400000

/-- `cleanupTempBackups()` from `state-store.mjs`: walk the scratch
entries in order, stat each one and remove it when its mtime is older
than the cutoff.  The loop body has no try/catch, so the first stat or
rm error rejects the whole sweep; on success the list of removed entry
names is returned. -/
def cleanupTempBackups (cutoffMs : Int) : List TempEntry → Except String (List String)
  | [] => .ok []
  | e :: rest =>
    match e.statResult with
    | .error err => .error err
    | .ok mtimeMs =>
      if mtimeMs < cutoffMs then
        match e.rmResult with
        | .error err => .error err
        | .ok _ =>
          match cleanupTempBackups cutoffMs rest with
          | .error err => .error err
          | .ok names => .ok (e.name :: names)
      else cleanupTempBackups cutoffMs rest

/-! ## Concrete fixtures used by closed evaluation theorems -/

/-- A concrete monitored game. -/
def sampleGame : Game :=
  { id := "game-a", title := "Juego A", savePath := "C:/saves/game-a",
    processName := "juego.exe", executablePath := "", installRoot := "",
    launchType := "exe", launchTarget := "", totalPlaySeconds := 0,
    currentlyRunning := false, sessionStartedAt := none, lastPlayedAt := none,
    filePatterns := ["**/*"], latestLocalSave := none, latestRemoteSave := none }

/-- Concrete ambient inputs of a capture attempt. -/
def sampleCtx : CaptureCtx :=
  { snapshotId := "snap-1", createdAt := "2024-01-01T00:00:00Z", tmpdir := "/tmp" }

/-- A degenerate digest, used where the hash value is irrelevant. -/
def zeroDigest : List (String × String × List Nat) → String := fun _ => ""

/-- A concrete local snapshot, the `S1` of the merge scenario. -/
def sampleSnapshot : LocalSnapshot :=
  { id := "s1", gameId := "game-a", createdAt := "2024-01-01T00:00:00Z",
    modifiedFiles := 3, archiveName := "game-a-s1.zip",
    archivePath := "/tmp/game-a-s1.zip", hash := "h1", sizeBytes := 12 }

/-- The in-memory state of the merge scenario: `game-a` currently holds
`latestLocalSave = S1`. -/
def sampleLocalState : AppState :=
  { scanRoots := ["C:/juegos"],
    games := [{ sampleGame with latestLocalSave := some sampleSnapshot }],
    lastCloudSyncAt := none }

/-- The raw `game-a` record of the remote catalog, carrying no
local-save pointer. -/
def sampleRawGame : RawGame :=
  { id := "game-a", title := "Juego A", savePath := "C:/saves/game-a",
    processName := "juego.exe", executablePath := none, installRoot := none,
    launchType := none, launchTarget := none, totalPlaySeconds := none,
    lastPlayedAt := none, filePatterns := none, latestLocalSave := none,
    latestRemoteSave := none }

/-- The remote catalog document of the merge scenario. -/
def sampleRemoteCatalog : CloudCatalog :=
  { scanRoots := some ["D:/otros"], games := some [sampleRawGame] }

/-! ## Theorems -/

/-- Claim C6: while the entity's process is detected running, an
automatic capture attempt emits an informational event and reschedules
itself instead of capturing, a manual attempt fails immediately with the
precondition error naming the open process, and with the process closed
the attempt proceeds with the capture body. -/
theorem captureIfStable_process_gate
    (digest : List (String × String × List Nat) → String) (game : Game)
    (ctx : CaptureCtx) (listing : Except String (List FileEntry)) :
    captureIfStable digest game ctx true false listing =
      { result := .ok none,
        events := [{ type := .info, gameId := some game.id, message := autoGateMsg game }],
        rescheduled := true } ∧
    captureIfStable digest game ctx true true listing =
      { result := .error (manualGateMsg game),
        events := [{ type := .info, gameId := some game.id, message := manualGateMsg game }],
        rescheduled := false } ∧
    (∀ manual, captureIfStable digest game ctx false manual listing =
      captureBody digest game ctx listing) :=
  ⟨rfl, rfl, fun _ => rfl⟩

/-- Claim C10: a configured process name that is missing or normalizes to
the empty string makes `isProcessRunning` answer `false` and
`getProcessState` answer `{running: false, startedAt: null}` without any
OS process-table query, and the process gate of `captureIfStable` never
blocks such an entity. -/
theorem processOracle_empty_lookup (tasklistOut : String) (ps : PsQuery)
    (digest : List (String × String × List Nat) → String) (game : Game)
    (ctx : CaptureCtx) (manual : Bool) (listing : Except String (List FileEntry))
    (p : Option String) (h : normalizeProcessLookupName p = "") :
    isProcessRunning tasklistOut p = (false, false) ∧
    getProcessState tasklistOut ps p = (false, { running := false, startedAt := none }) ∧
    captureIfStable digest game ctx (isProcessRunning tasklistOut p).2 manual listing =
      captureBody digest game ctx listing := by
  have h1 : isProcessRunning tasklistOut p = (false, false) := by
    unfold isProcessRunning
    simp [h]
  refine ⟨h1, ?_, ?_⟩
  · unfold getProcessState
    simp [h]
  · rw [h1]
    exact rfl

/-- Witness for claim C10 at the concrete name `" .exe"`, which
normalizes to the empty string after stripping path and extension. -/
theorem processOracle_empty_lookup_witness :
    normalizeProcessLookupName (some " .exe") = "" ∧
    isProcessRunning "juego.exe consola 123" (some " .exe") = (false, false) ∧
    getProcessState "juego.exe consola 123" PsQuery.failed (some " .exe") =
      (false, { running := false, startedAt := none }) := by
  have h := processOracle_empty_lookup "juego.exe consola 123" PsQuery.failed
    zeroDigest sampleGame sampleCtx true (.ok []) (some " .exe") (by decide)
  exact ⟨by decide, h.1, h.2.1⟩

/-- Claim C5: `mergeCloudCatalog` replaces the scan-root list and the
game list wholesale from the merged-in document, except that each merged
game's latest-local-snapshot pointer is the one currently held in memory
for its id; a game with a local `latestLocalSave = S1` and no local-save
field in the remote catalog still shows `S1` after the merge. -/
theorem mergeCloudCatalog_preserves_local_pointer
    (st : AppState) (remote : CloudCatalog) (rs : List String) (gs : List RawGame)
    (hrs : remote.scanRoots = some rs) (hgs : remote.games = some gs) :
    (mergeCloudCatalog st remote).scanRoots = rs ∧
    (mergeCloudCatalog st remote).games =
      gs.map (fun g =>
        normalizeGameRecord { g with latestLocalSave := localSnapshotFor st.games g.id }) ∧
    (∀ g ∈ gs, ∀ s1, localSnapshotFor st.games g.id = some s1 →
      (normalizeGameRecord
        { g with latestLocalSave := localSnapshotFor st.games g.id }).latestLocalSave = some s1) := by
  refine ⟨?_, ?_, ?_⟩
  · unfold mergeCloudCatalog
    simp [hrs]
  · unfold mergeCloudCatalog
    simp [hgs]
  · intro g _ s1 hs1
    simp [normalizeGameRecord, hs1]

/-- Witness for claim C5 on the `game-a` scenario: the remote catalog
lacks a local-save pointer for `game-a`, yet the merged state still shows
`latestLocalSave = S1`. -/
theorem mergeCloudCatalog_preserves_local_pointer_witness :
    (mergeCloudCatalog sampleLocalState sampleRemoteCatalog).games =
      [normalizeGameRecord
        { sampleRawGame with
            latestLocalSave := localSnapshotFor sampleLocalState.games sampleRawGame.id }] ∧
    (normalizeGameRecord
      { sampleRawGame with
          latestLocalSave := localSnapshotFor sampleLocalState.games sampleRawGame.id
      }).latestLocalSave = some sampleSnapshot := by
  have h := mergeCloudCatalog_preserves_local_pointer sampleLocalState sampleRemoteCatalog
    ["D:/otros"] [sampleRawGame] rfl rfl
  refine ⟨by simpa using h.2.1, ?_⟩
  exact h.2.2 sampleRawGame (by simp) sampleSnapshot (by decide)

/-- Claim C3: `uploadBackup` completes its store writes in exactly the
order archive, metadata document, latest pointer; the run succeeds
precisely when all three completed; the latest pointer is only ever
written after the other two; and a failure of folder resolution, the
archive upload or the metadata upsert leaves the previous latest pointer
unchanged and surfaces as an error. -/
theorem uploadBackup_order_and_latest_guard (oc : UploadOutcomes)
    (md : RemoteBackup) (st : DriveGameStore) :
    ((uploadBackup oc md st).2.2 = [] ∨
     (uploadBackup oc md st).2.2 = [.storeArchive] ∨
     (uploadBackup oc md st).2.2 = [.storeArchive, .storeMetadata] ∨
     (uploadBackup oc md st).2.2 = [.storeArchive, .storeMetadata, .writeLatest]) ∧
    ((uploadBackup oc md st).1.isOk = true ↔
      (uploadBackup oc md st).2.2 = [.storeArchive, .storeMetadata, .writeLatest]) ∧
    (DriveOp.writeLatest ∈ (uploadBackup oc md st).2.2 →
      (uploadBackup oc md st).2.2 = [.storeArchive, .storeMetadata, .writeLatest]) ∧
    ((oc.ensureFolders.isOk = false ∨ oc.archiveUpload.isOk = false ∨
        oc.metadataUpsert.isOk = false) →
      ((uploadBackup oc md st).2.1.latest = st.latest ∧
        (uploadBackup oc md st).1.isOk = false)) := by
  unfold uploadBackup
  cases hEF : oc.ensureFolders with
  | error e => simp [hEF, Except.isOk, Except.toBool]
  | ok u =>
    cases hA : oc.archiveUpload with
    | error e => simp [hA, Except.isOk, Except.toBool]
    | ok aid =>
      cases hM : oc.metadataUpsert with
      | error e => simp [hM, Except.isOk, Except.toBool]
      | ok mid =>
        cases hL : oc.latestUpsert with
        | error e => simp [hEF, hA, hM, Except.isOk, Except.toBool]
        | ok lid => simp [hEF, hA, hM, Except.isOk, Except.toBool]

/-- Claim C1: on a restore attempt that passes the preconditions, made on
an entity whose live save directory existed (so the safety copy was
taken), a download or extraction failure makes `restoreLatestRemote`
clear the live directory, copy the safety-folder contents back verbatim
— leaving the live directory byte-identical to its pre-restore state —
and re-raise the triggering error (provided the rollback copy itself
succeeds). -/
theorem restoreLatestRemote_rolls_back (env : RestoreEnv) (restoredAt : String)
    (st : RestoreFs) (live0 : Tree) (e : String)
    (hrem : env.hasRemote = true) (hrun : env.processRunning = false)
    (hlive : st.live = some live0)
    (hfail : env.download = .error e ∨
      ((env.download.isOk = true) ∧ env.extraction = .error e))
    (hrb : env.rollbackCopy = .ok ()) :
    (restoreLatestRemote env restoredAt st).1 = .error e ∧
    (restoreLatestRemote env restoredAt st).2.live = some live0 := by
  unfold restoreLatestRemote
  rcases hfail with hdl | ⟨hdlOk, hex⟩
  · simp only [hrem, hrun, hlive, hdl, Bool.not_true, Bool.false_eq_true, if_false,
      Bool.true_eq_false]
    unfold restoreCatch
    simp [hrb]
  · cases hdl : env.download with
    | error e2 => rw [hdl] at hdlOk; exact absurd hdlOk (by simp [Except.isOk, Except.toBool])
    | ok zipBytes =>
      simp only [hrem, hrun, hlive, hdl, hex, Bool.not_true, Bool.false_eq_true, if_false,
        Bool.true_eq_false]
      unfold restoreCatch
      simp [hrb]

/-- Witness for claim C1: a concrete restore attempt whose download
fails; the live directory afterwards equals its pre-restore content and
the download error is re-raised. -/
theorem restoreLatestRemote_rolls_back_witness :
    (restoreLatestRemote
      { hasRemote := true, processRunning := false, processName := "juego.exe",
        download := .error "fallo la descarga", extraction := .ok [],
        rollbackCopy := .ok () }
      "2024-01-02T00:00:00Z"
      { live := some [("slot1.sav", [1, 2, 3]), ("cfg/opts.ini", [7])],
        safety := none, archive := none }).1 = .error "fallo la descarga" ∧
    (restoreLatestRemote
      { hasRemote := true, processRunning := false, processName := "juego.exe",
        download := .error "fallo la descarga", extraction := .ok [],
        rollbackCopy := .ok () }
      "2024-01-02T00:00:00Z"
      { live := some [("slot1.sav", [1, 2, 3]), ("cfg/opts.ini", [7])],
        safety := none, archive := none }).2.live =
      some [("slot1.sav", [1, 2, 3]), ("cfg/opts.ini", [7])] :=
  restoreLatestRemote_rolls_back _ _ _ [("slot1.sav", [1, 2, 3]), ("cfg/opts.ini", [7])]
    "fallo la descarga" rfl rfl rfl (Or.inl rfl) rfl

/-- Claim C7 evaluation: when the rollback copy itself fails after a
primary download failure, `restoreLatestRemote` raises only the rollback
error — the original download error is silently lost, because the rethrow
of the triggering error sits after the rollback copy in the catch block
and is never reached. -/
theorem restoreLatestRemote_rollback_failure_loses_primary_error :
    (restoreLatestRemote
      { hasRemote := true, processRunning := false, processName := "juego.exe",
        download := .error "fallo la descarga", extraction := .ok [],
        rollbackCopy := .error "fallo la copia de seguridad" }
      "2024-01-02T00:00:00Z"
      { live := some [("slot1.sav", [1, 2, 3])], safety := none, archive := none }).1 =
      .error "fallo la copia de seguridad" := by
  decide

/-- Claim C9 evaluation: the retention sweep of `cleanupTempBackups` has
no per-entry isolation — a stat error on the first scratch entry rejects
the whole sweep and the second, expired entry is not deleted, although
the same sweep run on the second entry alone would delete it. -/
theorem cleanupTempBackups_aborts_on_first_entry_error :
    cleanupTempBackups 0
      [{ name := "game-a-viejo", statResult := .error "EPERM: stat", rmResult := .ok () },
       { name := "game-b-viejo", statResult := .ok (-100), rmResult := .ok () }] =
      .error "EPERM: stat" ∧
    cleanupTempBackups 0
      [{ name := "game-b-viejo", statResult := .ok (-100), rmResult := .ok () }] =
      .ok ["game-b-viejo"] := by
  decide

/-- Claim C2 counterexample: a timer-fired automatic capture that
matches zero files is not suppressed and not converted to a warning
event — `captureIfStable` throws the zero-files error out of the timer
callback (which has no catch) and emits no event at all. -/
theorem timer_capture_zero_files_escapes :
    (timerFiredCapture zeroDigest sampleGame sampleCtx false (.ok [])).result =
      .error (noFilesMsg sampleGame) ∧
    (timerFiredCapture zeroDigest sampleGame sampleCtx false (.ok [])).events = [] :=
  ⟨rfl, rfl⟩

/-- Claim C2 as amended: a failure of the capture body (zero matched
files or a failed enumeration) on the automatic path is not handled
locally — it surfaces as exactly the same error the manual path raises,
with no warning event emitted; only the process-running condition is
handled locally on the automatic path. -/
theorem capture_failure_same_on_auto_and_manual
    (digest : List (String × String × List Nat) → String) (game : Game)
    (ctx : CaptureCtx) (listing : Except String (List FileEntry))
    (hfail : (captureBody digest game ctx listing).result.isOk = false) :
    (timerFiredCapture digest game ctx false listing).result =
      (captureIfStable digest game ctx false true listing).result ∧
    (timerFiredCapture digest game ctx false listing).result.isOk = false ∧
    (timerFiredCapture digest game ctx false listing).events = [] := by
  refine ⟨rfl, hfail, ?_⟩
  show (captureBody digest game ctx listing).events = []
  unfold captureBody
  unfold captureBody at hfail
  cases listing with
  | error e => rfl
  | ok enumerated =>
    by_cases hz : (collectFiles game.filePatterns enumerated).length = 0
    · simp [hz]
    · simp only [hz, if_false] at hfail
      exact absurd hfail (by simp [Except.isOk, Except.toBool])

/-- Witness for the amended claim C2 at a concrete zero-files attempt. -/
theorem capture_failure_same_on_auto_and_manual_witness :
    (timerFiredCapture zeroDigest sampleGame sampleCtx false (.ok [])).result =
      (captureIfStable zeroDigest sampleGame sampleCtx false true (.ok [])).result ∧
    (timerFiredCapture zeroDigest sampleGame sampleCtx false (.ok [])).result.isOk = false ∧
    (timerFiredCapture zeroDigest sampleGame sampleCtx false (.ok [])).events = [] :=
  capture_failure_same_on_auto_and_manual zeroDigest sampleGame sampleCtx (.ok []) rfl

/-! ## Fingerprint determinism (helper lemmas and claim C4) -/

/-- Strict relative-path order on enumerated files. -/
def fileKeyLt (a b : FileEntry) : Prop := a.relativePath.data < b.relativePath.data

instance : IsAntisymm FileEntry fileKeyLt :=
  ⟨fun _ _ h₁ h₂ => absurd (lt_trans h₁ h₂) (lt_irrefl _)⟩

/-- A path-sorted list of files with pairwise-distinct paths is strictly
sorted by path. -/
lemma sorted_fileKeyLt_of_sorted_nodup {l : List FileEntry}
    (hs : List.Sorted fileLe l) (hn : (l.map FileEntry.relativePath).Nodup) :
    List.Sorted fileKeyLt l := by
  have hs' : l.Pairwise fileLe := hs
  have hne : l.Pairwise (fun a b => a.relativePath ≠ b.relativePath) :=
    List.pairwise_map.mp hn
  refine (hs'.and hne).imp ?_
  intro a b h
  exact lt_of_le_of_ne h.1 (fun hd => h.2 (String.ext hd))

/-- The matched-file lists computed from two enumerations of the same
file set are permutations of each other. -/
lemma collectFiles_perm (patterns : List String) {l₁ l₂ : List FileEntry}
    (hperm : l₁.Perm l₂) :
    (collectFiles patterns l₁).Perm (collectFiles patterns l₂) := by
  unfold collectFiles
  exact (List.perm_insertionSort _ _).trans
    ((hperm.filter _).trans (List.perm_insertionSort _ _).symm)

/-- Distinctness of relative paths survives filtering and sorting. -/
lemma collectFiles_nodup_keys (patterns : List String) {l : List FileEntry}
    (hn : (l.map FileEntry.relativePath).Nodup) :
    ((collectFiles patterns l).map FileEntry.relativePath).Nodup := by
  unfold collectFiles
  have hf : ((l.filter (selectFile patterns)).map FileEntry.relativePath).Nodup :=
    List.Nodup.sublist ((List.filter_sublist l).map FileEntry.relativePath) hn
  exact ((List.perm_insertionSort fileLe
    (l.filter (selectFile patterns))).map FileEntry.relativePath).nodup_iff.mpr hf

/-- Claim C4: `collectFiles` sorts the matched files by relative path,
`hashFiles` feeds exactly the tuple (relative path, mtime, raw bytes) of
each matched file into the hasher in that order, and for a file set with
pairwise-distinct paths the computed fingerprint does not depend on the
order in which the filesystem enumerated the files. -/
theorem fingerprint_enumeration_order_independent
    (digest : List (String × String × List Nat) → String) (patterns : List String)
    (l₁ l₂ : List FileEntry) (hperm : l₁.Perm l₂)
    (hnodup : (l₁.map FileEntry.relativePath).Nodup) :
    collectFiles patterns l₁ = collectFiles patterns l₂ ∧
    List.Sorted fileLe (collectFiles patterns l₁) ∧
    hashInput (collectFiles patterns l₁) =
      (collectFiles patterns l₁).map (fun f => (f.relativePath, f.modifiedAt, f.content)) ∧
    hashFiles digest (collectFiles patterns l₁) =
      hashFiles digest (collectFiles patterns l₂) := by
  have hp := collectFiles_perm patterns hperm
  have hs₁ : List.Sorted fileLe (collectFiles patterns l₁) :=
    List.sorted_insertionSort fileLe _
  have hs₂ : List.Sorted fileLe (collectFiles patterns l₂) :=
    List.sorted_insertionSort fileLe _
  have hn₁ := collectFiles_nodup_keys patterns hnodup
  have hn₂ := collectFiles_nodup_keys patterns
    ((hperm.map FileEntry.relativePath).nodup_iff.mp hnodup)
  have heq : collectFiles patterns l₁ = collectFiles patterns l₂ :=
    List.eq_of_perm_of_sorted hp
      (sorted_fileKeyLt_of_sorted_nodup hs₁ hn₁)
      (sorted_fileKeyLt_of_sorted_nodup hs₂ hn₂)
  exact ⟨heq, hs₁, rfl, by rw [heq]⟩

/-- A first concrete enumerated file. -/
def fileAlpha : FileEntry :=
  { relativePath := "alpha.sav", modifiedAt := "2024-01-01T00:00:00Z", content := [1] }

/-- A second concrete enumerated file. -/
def fileBeta : FileEntry :=
  { relativePath := "beta.sav", modifiedAt := "2024-01-01T00:00:01Z", content := [2, 3] }

/-- Witness for claim C4: the two enumeration orders of a concrete
two-file set produce the same matched list and the same fingerprint. -/
theorem fingerprint_enumeration_order_independent_witness :
    collectFiles ["*.sav"] [fileBeta, fileAlpha] =
      collectFiles ["*.sav"] [fileAlpha, fileBeta] ∧
    hashFiles zeroDigest (collectFiles ["*.sav"] [fileBeta, fileAlpha]) =
      hashFiles zeroDigest (collectFiles ["*.sav"] [fileAlpha, fileBeta]) := by
  have h := fingerprint_enumeration_order_independent zeroDigest ["*.sav"]
    [fileBeta, fileAlpha] [fileAlpha, fileBeta]
    (List.Perm.swap fileAlpha fileBeta []) (by decide)
  exact ⟨h.1, h.2.2.2⟩

/-! ## Debounce coalescing (helper lemmas and claim C8) -/

/-- Erasing a game's entry leaves the map with no entry for that game. -/
lemma countKey_erase_self (gid : String) (timers : List (String × Nat)) :
    (erasePendingTimer gid timers).countP (fun p => p.1 == gid) = 0 := by
  unfold erasePendingTimer
  rw [List.countP_filter]
  refine List.countP_eq_zero.mpr ?_
  intro a _
  simp

/-- Erasing any entry does not increase another game's entry count. -/
lemma countKey_erase_le (g gid : String) (timers : List (String × Nat)) :
    (erasePendingTimer g timers).countP (fun p => p.1 == gid) ≤
      timers.countP (fun p => p.1 == gid) := by
  unfold erasePendingTimer
  rw [List.countP_filter]
  refine List.countP_mono_left ?_
  intro a _ h
  exact (Bool.and_eq_true_iff.mp h).1

/-- One scheduler stimulus preserves the at-most-one-pending-timer
invariant. -/
lemma countKey_applySchedOp (w : Nat) (timers : List (String × Nat)) (op : SchedOp)
    (h : ∀ gid, timers.countP (fun p => p.1 == gid) ≤ 1) :
    ∀ gid, (applySchedOp w timers op).countP (fun p => p.1 == gid) ≤ 1 := by
  intro gid
  cases op with
  | mutation g t =>
    show ((g, t + w) :: erasePendingTimer g timers).countP (fun p => p.1 == gid) ≤ 1
    rw [List.countP_cons]
    by_cases hg : g = gid
    · subst hg
      simp [countKey_erase_self g timers]
    · have : ((g, t + w).1 == gid) = false := by simp [hg]
      simp only [this, Bool.false_eq_true, if_false, Nat.add_zero]
      exact le_trans (countKey_erase_le g gid timers) (h gid)
  | manualRequest g =>
    exact le_trans (countKey_erase_le g gid timers) (h gid)

/-- The invariant holds after any stimulus sequence from any state that
satisfies it. -/
lemma countKey_foldl_sched (w : Nat) (ops : List SchedOp) :
    ∀ (timers : List (String × Nat)),
      (∀ gid, timers.countP (fun p => p.1 == gid) ≤ 1) →
      ∀ gid, (ops.foldl (applySchedOp w) timers).countP (fun p => p.1 == gid) ≤ 1 := by
  induction ops with
  | nil => intro timers h; exact h
  | cons op rest ih =>
    intro timers h
    rw [List.foldl_cons]
    exact ih _ (countKey_applySchedOp w timers op h)

/-- Once a timer is armed by a mutation, a chain of further mutations
each arriving before the armed deadline yields exactly one fire. -/
lemma timerFireCount_chain (w : Nat) : ∀ (rest : List Nat) (t : Nat),
    List.Chain' (fun a b => a ≤ b ∧ b < a + w) (t :: rest) →
    timerFireCount w (some (t + w)) rest = 1 := by
  intro rest
  induction rest with
  | nil => intro t _; rfl
  | cons u rest ih =>
    intro t hch
    rw [List.chain'_cons] at hch
    have hlt : ¬ (t + w ≤ u) := by omega
    show (if t + w ≤ u then 1 else 0) + timerFireCount w (some (u + w)) rest = 1
    rw [if_neg hlt, ih u hch.2]

/-- Claim C8: every mutation cancels the entity's previous pending timer
before arming a new one and a manual request cancels any pending timer,
so the `pendingTimers` map never holds more than one entry per entity
after any stimulus sequence; and a nonempty burst of mutations, each
arriving while the previously armed timer is still pending, produces
exactly one scheduled capture attempt. -/
theorem debounce_single_pending_and_coalescing (w : Nat) (ops : List SchedOp)
    (gid : String) (ts : List Nat) (hne : ts ≠ [])
    (hchain : List.Chain' (fun a b => a ≤ b ∧ b < a + w) ts) :
    (runSchedOps w ops).countP (fun p => p.1 == gid) ≤ 1 ∧
    capturesScheduled w ts = 1 := by
  constructor
  · exact countKey_foldl_sched w ops [] (fun _ => le_of_eq rfl |>.trans (by norm_num)) gid
  · cases ts with
    | nil => exact absurd rfl hne
    | cons t rest =>
      show 0 + timerFireCount w (some (t + w)) rest = 1
      rw [Nat.zero_add]
      exact timerFireCount_chain w rest t hchain

/-- Witness for claim C8: three mutations inside the default settle
window yield exactly one scheduled capture, and a concrete stimulus
sequence leaves at most one pending timer for `game-a`. -/
theorem debounce_single_pending_and_coalescing_witness :
    (runSchedOps defaultSettleWindowMs
      [SchedOp.mutation "game-a" 0, SchedOp.mutation "game-a" 3,
       SchedOp.manualRequest "game-a", SchedOp.mutation "game-a" 4,
       SchedOp.mutation "game-b" 5]).countP (fun p => p.1 == "game-a") ≤ 1 ∧
    capturesScheduled defaultSettleWindowMs [0, 3, 5] = 1 := by
  refine debounce_single_pending_and_coalescing defaultSettleWindowMs _ "game-a" [0, 3, 5]
    (by decide) ?_
  simp only [List.chain'_cons, List.chain'_singleton, defaultSettleWindowMs, and_true]
  omega

end SincGames
